import Mathlib

set_option autoImplicit false

/-!
Shallow embedding of the workflow-tracing core of the repository:
`src/rca/tracking/workflow.py` (StepTrace, WorkflowTrace, FileStorageBackend,
WorkflowTracker), `src/rca/tracking/storage.py` (JSONFileStorage,
InMemoryStorage) and `src/rca/agents/base_agent.py` (RCAAgent.process).

Modelling conventions:
* `datetime.now()` is a monotone clock threaded through the state; each call
  returns the current tick and advances it by one.
* `uuid.uuid4()` is a fresh-name counter (`"uuid-" ++ n`); uniqueness is what
  the code relies on.
* Python `Dict[str, Any]` is an insertion-ordered association list with unique
  keys (`ainsert` replaces in place, as dict assignment does).
* File systems are maps from trace id to the stored trace; a `write_ok` flag
  models whether the underlying OS write succeeds.  `pickle.dump`/`json.dump`
  content is the trace itself (round-trip identity).
* Exceptions are explicit: a raising operation returns `Except PyExn _`.
-/

namespace RcaTracking

/-- A Python exception as observed by the tracing code: `type(e).__name__`
and `str(e)`. -/
structure PyExn where
  type_name : String
  msg : String
deriving Repr, DecidableEq

/-- A Python `Any` value appearing in inputs/outputs/metadata dictionaries. -/
inductive Value where
  | vStr : String → Value
  | vNat : Nat → Value
  | vList : List Value → Value
  | vNone : Value
deriving Repr, BEq

/-- Python `Dict[str, Any]`: insertion-ordered association list, unique keys. -/
abbrev Dict := List (String × Value)

/-- First-match association lookup (`m[k]` / `m.get(k)`). -/
def alookup {α : Type} : List (String × α) → String → Option α
  | [], _ => none
  | (k', v) :: rest, k => if k' = k then some v else alookup rest k

/-- `m[k] = v`: replace in place when the key exists, else append
(Python dict assignment keeps insertion position). -/
def ainsert {α : Type} : List (String × α) → String → α → List (String × α)
  | [], k, v => [(k, v)]
  | (k', v') :: rest, k, v =>
    if k' = k then (k, v) :: rest else (k', v') :: ainsert rest k v

/-- `m.pop(k, None)`: drop the (unique) entry with key `k`, if any. -/
def aremove {α : Type} : List (String × α) → String → List (String × α)
  | [], _ => []
  | (k', v') :: rest, k =>
    if k' = k then rest else (k', v') :: aremove rest k

/-- Python `d.update(m)`: fold the entries of `m` into `d` in order. -/
def dictUpdate (d m : Dict) : Dict :=
  m.foldl (fun acc kv => ainsert acc kv.1 kv.2) d

/-- `StepTrace` (workflow.py): trace information for a single step. -/
structure StepTrace where
  step_name : String
  inputs : Dict
  outputs : Dict
  start_time : Nat
  end_time : Option Nat := none
  duration_ms : Option Int := none
  metadata : Dict := []
deriving Repr, BEq

/-- `WorkflowTrace` (workflow.py): complete trace of a workflow execution. -/
structure WorkflowTrace where
  trace_id : String
  query : String
  start_time : Nat
  end_time : Option Nat := none
  duration_ms : Option Int := none
  steps : List StepTrace := []
  final_response : Option String := none
  metadata : Dict := []
deriving Repr, BEq

/-! ## storage.py: InMemoryStorage -/

/-- `InMemoryStorage` (storage.py): traces dict, FIFO id list, capacity. -/
structure InMemoryStorage where
  traces : List (String × WorkflowTrace) := []
  max_traces : Nat := 100
  trace_ids : List String := []
deriving Repr

/-- `InMemoryStorage.store_trace`: insert, append the id, then evict the
oldest id (and its map entry) when over capacity. -/
def InMemoryStorage.store_trace (s : InMemoryStorage) (t : WorkflowTrace) :
    InMemoryStorage :=
  let traces := ainsert s.traces t.trace_id t
  let trace_ids := s.trace_ids ++ [t.trace_id]
  if trace_ids.length > s.max_traces then
    match trace_ids with
    | [] => { s with traces := traces, trace_ids := trace_ids }
    | oldest :: rest =>
      { s with traces := aremove traces oldest, trace_ids := rest }
  else
    { s with traces := traces, trace_ids := trace_ids }

/-- `InMemoryStorage.get_trace`: point lookup. -/
def InMemoryStorage.get_trace (s : InMemoryStorage) (trace_id : String) :
    Option WorkflowTrace :=
  alookup s.traces trace_id

/-- `InMemoryStorage.get_all_traces`: the stored traces (dict values). -/
def InMemoryStorage.get_all_traces (s : InMemoryStorage) : List WorkflowTrace :=
  s.traces.map (·.2)

/-! ## storage.py: JSONFileStorage, workflow.py: FileStorageBackend -/

/-- `JSONFileStorage` (storage.py): one JSON file per trace under a
directory.  `fs` maps trace id to the serialized trace; `write_ok` models
whether the OS write succeeds. -/
structure JSONFileStorage where
  fs : List (String × WorkflowTrace) := []
  write_ok : Bool := true
deriving Repr

/-- `JSONFileStorage.store_trace`: `json.dump` with NO exception handling —
a failing write raises to the caller. -/
def JSONFileStorage.store_trace (b : JSONFileStorage) (t : WorkflowTrace) :
    Except PyExn JSONFileStorage :=
  if b.write_ok then
    .ok { b with fs := ainsert b.fs t.trace_id t }
  else
    .error ⟨"OSError", "write failed"⟩

/-- `JSONFileStorage.get_trace`: read the file back if it exists. -/
def JSONFileStorage.get_trace (b : JSONFileStorage) (trace_id : String) :
    Option WorkflowTrace :=
  alookup b.fs trace_id

/-- `FileStorageBackend` (workflow.py): one pickle file per trace. -/
structure FileStorageBackend where
  fs : List (String × WorkflowTrace) := []
  write_ok : Bool := true
deriving Repr

/-- `FileStorageBackend.store_trace`: the pickle write is wrapped in
`try/except` — on error it logs and returns `False`, never raising. -/
def FileStorageBackend.store_trace (b : FileStorageBackend) (t : WorkflowTrace) :
    Bool × FileStorageBackend :=
  if b.write_ok then
    (true, { b with fs := ainsert b.fs t.trace_id t })
  else
    (false, b)

/-- `FileStorageBackend.load_traces` (no limit): the stored traces. -/
def FileStorageBackend.load_traces (b : FileStorageBackend) :
    List WorkflowTrace :=
  b.fs.map (·.2)

/-- The storage backends a `WorkflowTracker` can hold. -/
inductive Backend where
  | file : FileStorageBackend → Backend
  | json : JSONFileStorage → Backend
  | mem : InMemoryStorage → Backend
deriving Repr

/-- Duck-typed `store_trace` dispatch, as `complete_trace` performs it: the
tracker calls `store_trace` directly and catches nothing, so an exception
from the backend propagates. -/
def Backend.store_trace (b : Backend) (t : WorkflowTrace) :
    Except PyExn Backend :=
  match b with
  | .file fb => .ok (.file (fb.store_trace t).2)
  | .json jb => (jb.store_trace t).map .json
  | .mem mb => .ok (.mem (mb.store_trace t))

/-- `hasattr(backend, 'get_trace')` plus the lookup itself: `none` when the
backend has no `get_trace` attribute (FileStorageBackend). -/
def Backend.get_trace_attr (b : Backend) (trace_id : String) :
    Option (Option WorkflowTrace) :=
  match b with
  | .file _ => none
  | .json jb => some (jb.get_trace trace_id)
  | .mem mb => some (mb.get_trace trace_id)

/-- `hasattr(backend, 'load_traces')` plus the call: only
FileStorageBackend defines `load_traces`. -/
def Backend.load_traces_attr (b : Backend) : Option (List WorkflowTrace) :=
  match b with
  | .file fb => some fb.load_traces
  | .json _ => none
  | .mem _ => none

/-! ## workflow.py: WorkflowTracker -/

/-- The mutable state of a `WorkflowTracker`, together with the monotone
clock backing `datetime.now()` and the counter backing `uuid.uuid4()`. -/
structure TrackerState where
  traces : List (String × WorkflowTrace) := []
  storage_backend : Option Backend := none
  next_id : Nat := 0
  clock : Nat := 0
deriving Repr

/-- `datetime.now()`: return the tick and advance the clock. -/
def now (s : TrackerState) : Nat × TrackerState :=
  (s.clock, { s with clock := s.clock + 1 })

/-- `WorkflowTracker._load_traces`: when the backend has `load_traces`,
pull every stored trace into the in-memory registry. -/
def WorkflowTracker.load_traces (s : TrackerState) : TrackerState :=
  match s.storage_backend.bind Backend.load_traces_attr with
  | none => s
  | some loaded =>
    { s with traces := loaded.foldl (fun m t => ainsert m t.trace_id t) s.traces }

/-- `WorkflowTracker.register_storage_backend`: REPLACE the backend field
with the new backend, then reload. -/
def WorkflowTracker.register_storage_backend (s : TrackerState) (b : Backend) :
    TrackerState :=
  WorkflowTracker.load_traces { s with storage_backend := some b }

/-- `WorkflowTracker.start_trace`: mint an id, insert a fresh trace with
`start_time = now`, return the id. -/
def WorkflowTracker.start_trace (s : TrackerState) (query : String) :
    String × TrackerState :=
  let trace_id := "uuid-" ++ toString s.next_id
  let s := { s with next_id := s.next_id + 1 }
  let (t, s) := now s
  let trace : WorkflowTrace := { trace_id := trace_id, query := query, start_time := t }
  (trace_id, { s with traces := ainsert s.traces trace_id trace })

/-- `WorkflowTracker.complete_trace`: seal the trace in the registry (set
`end_time`, recompute `duration_ms`, overwrite `final_response` when the
argument is not `None`), then store to the current backend; returns `False`
when the id is unknown.  A raising backend propagates (`Except.error`),
after the registry mutation has already happened. -/
def WorkflowTracker.complete_trace (s : TrackerState) (trace_id : String)
    (final_response : Option String) : Except PyExn Bool × TrackerState :=
  match alookup s.traces trace_id with
  | none => (.ok false, s)
  | some trace =>
    let (t, s) := now s
    let trace := { trace with
      end_time := some t
      duration_ms := some ((t : Int) - (trace.start_time : Int)) }
    let trace :=
      match final_response with
      | some r => { trace with final_response := some r }
      | none => trace
    let s := { s with traces := ainsert s.traces trace_id trace }
    match s.storage_backend with
    | none => (.ok true, s)
    | some b =>
      match b.store_trace trace with
      | .ok b' => (.ok true, { s with storage_backend := some b' })
      | .error e => (.error e, s)

/-- Replace the first step whose name matches (the Python code mutates
`existing_steps[0]`, an alias into `trace.steps`). -/
def setFirstStep : List StepTrace → String → StepTrace → List StepTrace
  | [], _, _ => []
  | st :: rest, name, new =>
    if st.step_name = name then new :: rest else st :: setFirstStep rest name new

/-- Python truthiness of the `metadata` keyword argument (`if metadata:`):
falsy when `None` or the empty dict. -/
def metaTruthy : Option Dict → Bool
  | none => false
  | some m => !m.isEmpty

/-- `WorkflowTracker.track_step`: `False` when the id is unknown; update
the first existing step with this name (outputs replaced, `end_time`
advanced, `duration_ms` from the ORIGINAL `start_time`, metadata merged) or
append a new one (`start_time` and `end_time` both stamped now, in that
evaluation order; `duration_ms` left unset). -/
def WorkflowTracker.track_step (s : TrackerState) (trace_id step_name : String)
    (inputs outputs : Dict) (metadata : Option Dict) : Bool × TrackerState :=
  match alookup s.traces trace_id with
  | none => (false, s)
  | some trace =>
    match (trace.steps.filter (fun st => st.step_name = step_name)).head? with
    | some step =>
      let (t, s) := now s
      let step' := { step with
        outputs := outputs
        end_time := some t
        duration_ms := some ((t : Int) - (step.start_time : Int))
        metadata :=
          if metaTruthy metadata then dictUpdate step.metadata (metadata.getD [])
          else step.metadata }
      let trace := { trace with steps := setFirstStep trace.steps step_name step' }
      (true, { s with traces := ainsert s.traces trace_id trace })
    | none =>
      let (t1, s) := now s
      let (t2, s) := now s
      let step : StepTrace := {
        step_name := step_name
        inputs := inputs
        outputs := outputs
        start_time := t1
        end_time := some t2
        metadata := metadata.getD [] }
      let trace := { trace with steps := trace.steps ++ [step] }
      (true, { s with traces := ainsert s.traces trace_id trace })

/-- `WorkflowTracker.get_trace`: registry first, then the backend's
`get_trace` when it has one, caching a hit back into the registry. -/
def WorkflowTracker.get_trace (s : TrackerState) (trace_id : String) :
    Option WorkflowTrace × TrackerState :=
  match alookup s.traces trace_id with
  | some trace => (some trace, s)
  | none =>
    match s.storage_backend.bind (Backend.get_trace_attr · trace_id) with
    | some (some trace) =>
      (some trace, { s with traces := ainsert s.traces trace_id trace })
    | _ => (none, s)

/-! ## base_agent.py: RCAAgent -/

/-- Result shape of `VectorSearchTool.execute`. -/
structure VectorSearchResponse where
  results : List Value

/-- Result shape of `DocumentRankingTool.execute`. -/
structure DocumentRankingResponse where
  results : List Value

/-- Result shape of `ResponseGenerationTool.execute`. -/
structure ResponseGenerationResponse where
  response : String
  citation_indices : List Nat
  confidence_score : Option Value

/-- The agent's tool dictionary; each tool may raise. -/
structure Tools where
  vector_search : String → Except PyExn VectorSearchResponse
  document_ranking : String → List Value → Except PyExn DocumentRankingResponse
  response_generation : String → List Value → Except PyExn ResponseGenerationResponse

/-- The dictionary `RCAAgent.process` returns on success. -/
structure AgentOutput where
  query : String
  trace_id : String
  response : String
  citation_indices : List Nat
  documents : List Value
  confidence_score : Value

/-- The `except Exception as e:` block of `RCAAgent.process`: track an
`"error"` step, seal the trace with `"Error: " + str(e)`, re-raise `e`
(an exception raised by the seal itself propagates instead). -/
def RCAAgent.error_path (s : TrackerState) (trace_id query : String) (e : PyExn)
    (tools_used : List String) : Except PyExn AgentOutput × TrackerState :=
  let (_, s) := WorkflowTracker.track_step s trace_id "error"
      [("query", .vStr query)] [("error", .vStr e.msg)]
      (some [("error_type", .vStr e.type_name),
             ("tools_used", .vList (tools_used.map Value.vStr))])
  match WorkflowTracker.complete_trace s trace_id (some ("Error: " ++ e.msg)) with
  | (.ok _, s) => (.error e, s)
  | (.error e2, s) => (.error e2, s)

/-- `RCAAgent.process`: start a trace, run the three-stage pipeline with a
pre-registration and a completion `track_step` around each tool call, seal
on success; on any exception divert to `error_path` with the stages
completed so far (`state.tools_used`). -/
def RCAAgent.process (tools : Tools) (s : TrackerState) (query : String) :
    Except PyExn AgentOutput × TrackerState :=
  let (trace_id, s) := WorkflowTracker.start_trace s query
  let search_inputs : Dict := [("query", .vStr query)]
  let (_, s) := WorkflowTracker.track_step s trace_id "vector_search" search_inputs []
      (some [("tool_name", .vStr "vector_search")])
  match tools.vector_search query with
  | .error e => RCAAgent.error_path s trace_id query e []
  | .ok search_results =>
    let (_, s) := WorkflowTracker.track_step s trace_id "vector_search" search_inputs
        [("documents", .vList search_results.results)]
        (some [("tool_name", .vStr "vector_search"),
               ("document_count", .vNat search_results.results.length)])
    let tools_used := ["vector_search"]
    let ranking_inputs : Dict :=
      [("query", .vStr query), ("documents", .vList search_results.results)]
    let (_, s) := WorkflowTracker.track_step s trace_id "document_ranking" ranking_inputs []
        (some [("tool_name", .vStr "document_ranking")])
    match tools.document_ranking query search_results.results with
    | .error e => RCAAgent.error_path s trace_id query e tools_used
    | .ok ranked_docs =>
      let (_, s) := WorkflowTracker.track_step s trace_id "document_ranking" ranking_inputs
          [("documents", .vList ranked_docs.results)]
          (some [("tool_name", .vStr "document_ranking"),
                 ("document_count", .vNat ranked_docs.results.length)])
      let tools_used := tools_used ++ ["document_ranking"]
      let response_inputs : Dict :=
        [("query", .vStr query), ("documents", .vList ranked_docs.results)]
      let (_, s) := WorkflowTracker.track_step s trace_id "response_generation"
          response_inputs [] (some [("tool_name", .vStr "response_generation")])
      match tools.response_generation query ranked_docs.results with
      | .error e => RCAAgent.error_path s trace_id query e tools_used
      | .ok response_result =>
        let (_, s) := WorkflowTracker.track_step s trace_id "response_generation"
            response_inputs [("response", .vStr response_result.response)]
            (some [("tool_name", .vStr "response_generation")])
        let output : AgentOutput := {
          query := query
          trace_id := trace_id
          response := response_result.response
          citation_indices := response_result.citation_indices
          documents := ranked_docs.results
          confidence_score := response_result.confidence_score.getD (.vNat 0) }
        match WorkflowTracker.complete_trace s trace_id (some response_result.response) with
        | (.ok _, s) => (.ok output, s)
        | (.error e, s) => RCAAgent.error_path s trace_id query e tools_used

/-- Spec-side characterisation used to state the error claim: the exception
the pipeline raises for `q`, replaying the data flow of `process`
(ranking consumes the search results, generation the ranked results);
`none` when every stage succeeds. -/
def pipeline_error (tools : Tools) (q : String) : Option PyExn :=
  match tools.vector_search q with
  | .error e => some e
  | .ok sr =>
    match tools.document_ranking q sr.results with
    | .error e => some e
    | .ok rr =>
      match tools.response_generation q rr.results with
      | .error e => some e
      | .ok _ => none

/-- Spec-side characterisation: the stages completed before the failing
one, in pipeline order. -/
def completed_stages (tools : Tools) (q : String) : List String :=
  match tools.vector_search q with
  | .error _ => []
  | .ok sr =>
    match tools.document_ranking q sr.results with
    | .error _ => ["vector_search"]
    | .ok _ => ["vector_search", "document_ranking"]

/-- A tracker as `WorkflowTracker()` builds it: default `FileStorageBackend`
over an empty directory, then `_load_traces` (a no-op on the empty
directory). -/
def initTracker : TrackerState :=
  WorkflowTracker.load_traces { storage_backend := some (.file {}) }

/-! ## Association-list lemmas -/

@[simp]
theorem alookup_nil {α : Type} (k : String) : alookup ([] : List (String × α)) k = none := rfl

@[simp]
theorem alookup_cons {α : Type} (hd : String × α) (m : List (String × α)) (k : String) :
    alookup (hd :: m) k = if hd.1 = k then some hd.2 else alookup m k := by
  cases hd; rfl

@[simp]
theorem ainsert_nil {α : Type} (k : String) (v : α) :
    ainsert ([] : List (String × α)) k v = [(k, v)] := rfl

@[simp]
theorem ainsert_cons {α : Type} (hd : String × α) (m : List (String × α)) (k : String) (v : α) :
    ainsert (hd :: m) k v = if hd.1 = k then (k, v) :: m else hd :: ainsert m k v := by
  cases hd; rfl

@[simp]
theorem aremove_nil {α : Type} (k : String) :
    aremove ([] : List (String × α)) k = [] := rfl

@[simp]
theorem aremove_cons {α : Type} (hd : String × α) (m : List (String × α)) (k : String) :
    aremove (hd :: m) k = if hd.1 = k then m else hd :: aremove m k := by
  cases hd; rfl

theorem alookup_ainsert_self {α : Type} (m : List (String × α)) (k : String) (v : α) :
    alookup (ainsert m k v) k = some v := by
  induction m with
  | nil => simp
  | cons hd tl ih =>
    by_cases h : hd.1 = k <;> simp [h, ih]

theorem alookup_ainsert_ne {α : Type} (m : List (String × α)) (k k' : String) (v : α)
    (h : k' ≠ k) : alookup (ainsert m k v) k' = alookup m k' := by
  induction m with
  | nil => simp [Ne.symm h]
  | cons hd tl ih =>
    by_cases hk : hd.1 = k
    · simp [hk, Ne.symm h]
    · simp [hk, ih]

theorem ainsert_of_alookup_none {α : Type} (m : List (String × α)) (k : String) (v : α)
    (h : alookup m k = none) : ainsert m k v = m ++ [(k, v)] := by
  induction m with
  | nil => simp
  | cons hd tl ih =>
    by_cases hk : hd.1 = k
    · simp [hk] at h
    · simp only [alookup_cons, hk, if_false, ite_false] at h
      simp [hk, ih h]

theorem alookup_append_of_none {α : Type} (m m' : List (String × α)) (k : String)
    (h : alookup m k = none) : alookup (m ++ m') k = alookup m' k := by
  induction m with
  | nil => simp
  | cons hd tl ih =>
    by_cases hk : hd.1 = k
    · simp [hk] at h
    · simp only [alookup_cons, hk, if_false, ite_false] at h
      simp [hk, ih h]

/-- Point lookup in the entry list of a trace sequence with pairwise
distinct ids finds each member. -/
theorem alookup_entries_of_mem (ts : List WorkflowTrace) (t : WorkflowTrace)
    (hmem : t ∈ ts) (hnodup : (ts.map WorkflowTrace.trace_id).Nodup) :
    alookup (ts.map fun t' => (t'.trace_id, t')) t.trace_id = some t := by
  induction ts with
  | nil => cases hmem
  | cons hd tl ih =>
    simp only [List.map_cons, List.nodup_cons] at hnodup
    rcases List.mem_cons.mp hmem with h | h
    · subst h; simp
    · have hne : hd.trace_id ≠ t.trace_id := by
        intro he
        exact hnodup.1 (he ▸ List.mem_map_of_mem WorkflowTrace.trace_id h)
      simp [hne, ih h hnodup.2]

/-- Point lookup misses when the id is not among the entries. -/
theorem alookup_entries_of_not_mem (ts : List WorkflowTrace) (k : String)
    (h : k ∉ ts.map WorkflowTrace.trace_id) :
    alookup (ts.map fun t' => (t'.trace_id, t')) k = none := by
  induction ts with
  | nil => rfl
  | cons hd tl ih =>
    simp only [List.map_cons, List.mem_cons] at h
    push_neg at h
    simp [Ne.symm h.1, ih h.2]

/-! ## Step-list lemmas for `track_step` -/

theorem filter_steps_eq_nil (l : List StepTrace) (n : String)
    (h : ∀ st ∈ l, st.step_name ≠ n) :
    l.filter (fun st => st.step_name = n) = [] := by
  induction l with
  | nil => rfl
  | cons hd tl ih =>
    have hhd := h hd (List.mem_cons_self hd tl)
    simp only [List.filter_cons]
    rw [if_neg (by simpa using hhd)]
    exact ih fun st hst => h st (List.mem_cons_of_mem hd hst)

theorem filter_steps_head (pre post : List StepTrace) (st0 : StepTrace) (n : String)
    (hpre : ∀ st ∈ pre, st.step_name ≠ n) (hst0 : st0.step_name = n) :
    ((pre ++ st0 :: post).filter (fun st => st.step_name = n)).head? = some st0 := by
  rw [List.filter_append, filter_steps_eq_nil pre n hpre]
  simp [List.filter_cons, hst0]

theorem setFirstStep_append (pre post : List StepTrace) (st0 new : StepTrace) (n : String)
    (hpre : ∀ st ∈ pre, st.step_name ≠ n) (hst0 : st0.step_name = n) :
    setFirstStep (pre ++ st0 :: post) n new = pre ++ new :: post := by
  induction pre with
  | nil => simp [setFirstStep, hst0]
  | cons hd tl ih =>
    have hhd := hpre hd (List.mem_cons_self hd tl)
    simp only [List.cons_append, setFirstStep, if_neg hhd]
    exact congrArg (hd :: ·) (ih fun st hst => hpre st (List.mem_cons_of_mem hd hst))

theorem filter_steps_append_singleton (l : List StepTrace) (st : StepTrace) (n : String)
    (hl : ∀ st' ∈ l, st'.step_name ≠ n) (hst : st.step_name = n) :
    (l ++ [st]).filter (fun st' => st'.step_name = n) = [st] := by
  rw [List.filter_append, filter_steps_eq_nil l n hl]
  simp [List.filter_cons, hst]

/-- `track_step` on an active trace with no step of this name: append a
fresh step stamped with the two `now()` ticks and no duration. -/
theorem track_step_create (s : TrackerState) (tid n : String) (i o : Dict)
    (m : Option Dict) (trace : WorkflowTrace)
    (hactive : alookup s.traces tid = some trace)
    (hnone : ∀ st ∈ trace.steps, st.step_name ≠ n) :
    WorkflowTracker.track_step s tid n i o m =
      (true, { s with
        clock := s.clock + 2
        traces := ainsert s.traces tid { trace with
          steps := trace.steps ++
            [StepTrace.mk n i o s.clock (some (s.clock + 1)) none (m.getD [])] } }) := by
  simp only [WorkflowTracker.track_step, hactive,
    filter_steps_eq_nil trace.steps n hnone, List.head?_nil, now]

/-- `track_step` on an active trace whose first step of this name is `st0`:
replace `st0` in place, new outputs, `end_time` advanced, duration from the
ORIGINAL `start_time`, metadata merged; `inputs` discarded. -/
theorem track_step_update (s : TrackerState) (tid n : String) (i o : Dict)
    (m : Option Dict) (trace : WorkflowTrace) (pre post : List StepTrace) (st0 : StepTrace)
    (hactive : alookup s.traces tid = some trace)
    (hsteps : trace.steps = pre ++ st0 :: post)
    (hpre : ∀ st ∈ pre, st.step_name ≠ n) (hst0 : st0.step_name = n) :
    WorkflowTracker.track_step s tid n i o m =
      (true, { s with
        clock := s.clock + 1
        traces := ainsert s.traces tid { trace with
          steps := pre ++ { st0 with
            outputs := o
            end_time := some s.clock
            duration_ms := some ((s.clock : Int) - (st0.start_time : Int))
            metadata :=
              if metaTruthy m then dictUpdate st0.metadata (m.getD [])
              else st0.metadata } :: post } }) := by
  simp only [WorkflowTracker.track_step, hactive, hsteps]
  rw [filter_steps_head pre post st0 n hpre hst0]
  simp only [now]
  rw [setFirstStep_append pre post st0 _ n hpre hst0]

/-! ## Claim theorems -/

/-- C10: for the in-memory backend, storing the same `trace_id` twice leaves
two entries in the insertion-order list but one in the map; the next
eviction pops the first occurrence and deletes the map entry entirely, so
`get` returns null for an id stored within the most recent `max_traces`
store calls. -/
theorem c10_duplicate_id_defeats_eviction :
    let tA : WorkflowTrace := { trace_id := "a", query := "qa", start_time := 0 }
    let tA2 : WorkflowTrace := { trace_id := "a", query := "qa2", start_time := 1 }
    let tB : WorkflowTrace := { trace_id := "b", query := "qb", start_time := 2 }
    let s2 := (InMemoryStorage.store_trace
      (InMemoryStorage.store_trace { max_traces := 2 } tA) tA2)
    let s3 := s2.store_trace tB
    s2.trace_ids = ["a", "a"] ∧
    s2.traces.map Prod.fst = ["a"] ∧
    s3.get_trace "a" = none ∧
    s3.trace_ids = ["a", "b"] :=
  ⟨rfl, rfl, rfl, rfl⟩

/-- C5 counterexample: with a registered `JSONFileStorage` whose underlying
write fails, `complete_trace` does NOT return normally — the persistence
exception propagates to the caller (`store_trace` has no try/except and
`complete_trace` catches nothing). -/
theorem c5_counterexample :
    let s0 : TrackerState := { storage_backend := some (.json { write_ok := false }) }
    let tid := (WorkflowTracker.start_trace s0 "q").1
    let s1 := (WorkflowTracker.start_trace s0 "q").2
    (WorkflowTracker.complete_trace s1 tid (some "r")).1 =
      .error ⟨"OSError", "write failed"⟩ :=
  rfl

/-- C5 amended: only `FileStorageBackend` swallows store failures (its
pickle write is wrapped in try/except and returns `False`); with it,
`complete_trace` returns normally and the trace is still sealed in the
registry, the failed write storing nothing. -/
theorem c5_file_backend_swallows_store_failure (q r : String)
    (fs : List (String × WorkflowTrace)) :
    let s0 : TrackerState := { storage_backend := some (.file { fs := fs, write_ok := false }) }
    let tid := (WorkflowTracker.start_trace s0 q).1
    let s1 := (WorkflowTracker.start_trace s0 q).2
    let done := WorkflowTracker.complete_trace s1 tid (some r)
    done.1 = .ok true ∧
    (alookup done.2.traces tid).map WorkflowTrace.final_response = some (some r) ∧
    done.2.storage_backend = some (.file { fs := fs, write_ok := false }) := by
  refine ⟨?_, ?_, ?_⟩ <;>
    simp [WorkflowTracker.complete_trace, WorkflowTracker.start_trace, now,
      Backend.store_trace, FileStorageBackend.store_trace]

/-- C4 counterexample: sealing twice is not an idempotent no-op — the second
`complete_trace` overwrites `final_response` with the second response and
recomputes `end_time`/`duration_ms`. -/
theorem c4_counterexample :
    let s0 : TrackerState := { storage_backend := some (.mem {}) }
    let tid := (WorkflowTracker.start_trace s0 "q").1
    let s1 := (WorkflowTracker.start_trace s0 "q").2
    let s2 := (WorkflowTracker.complete_trace s1 tid (some "r1")).2
    let s3 := (WorkflowTracker.complete_trace s2 tid (some "r2")).2
    (alookup s2.traces tid).map (fun t => (t.final_response, t.duration_ms)) =
      some (some "r1", some 1) ∧
    (alookup s3.traces tid).map (fun t => (t.final_response, t.duration_ms)) =
      some (some "r2", some 2) :=
  ⟨rfl, rfl⟩

/-- C4 amended: the second `complete_trace(id, r2)` re-seals the trace: its
`final_response` becomes `r2` (not `r1`) and its `end_time`/`duration_ms`
are recomputed at the later time, altering the first seal's values. -/
theorem c4_second_seal_overwrites (q r1 r2 : String) :
    let s0 : TrackerState := initTracker
    let tid := (WorkflowTracker.start_trace s0 q).1
    let s1 := (WorkflowTracker.start_trace initTracker q).2
    let s2 := (WorkflowTracker.complete_trace s1 tid (some r1)).2
    let s3 := (WorkflowTracker.complete_trace s2 tid (some r2)).2
    (alookup s2.traces tid).map (fun t => (t.final_response, t.duration_ms, t.end_time)) =
      some (some r1, some 1, some 1) ∧
    (alookup s3.traces tid).map (fun t => (t.final_response, t.duration_ms, t.end_time)) =
      some (some r2, some 2, some 2) := by
  constructor <;>
    simp [WorkflowTracker.complete_trace, WorkflowTracker.start_trace, now, initTracker,
      WorkflowTracker.load_traces, Backend.load_traces_attr, FileStorageBackend.load_traces,
      Backend.store_trace, FileStorageBackend.store_trace]

/-- C3 counterexample: a trace sealed by `complete_trace` is NOT removed
from the registry, so `track_step` on the sealed id returns `True` and
appends a step — refuting "sealed ids are no-ops". -/
theorem c3_counterexample :
    let s0 : TrackerState := { storage_backend := some (.mem {}) }
    let tid := (WorkflowTracker.start_trace s0 "q").1
    let s1 := (WorkflowTracker.start_trace s0 "q").2
    let s2 := (WorkflowTracker.complete_trace s1 tid (some "r")).2
    let stepped := WorkflowTracker.track_step s2 tid "extra" [] [] none
    (alookup s2.traces tid).map WorkflowTrace.end_time = some (some 1) ∧
    stepped.1 = true ∧
    (alookup stepped.2.traces tid).map (fun t => t.steps.length) = some 1 :=
  ⟨rfl, rfl, rfl⟩

/-- C3 amended: `track_step` returns false (leaving the state unchanged)
exactly for ids absent from the `traces` registry — i.e. never issued;
sealing does not remove a trace from the registry, so a sealed trace still
accepts steps. -/
theorem c3_track_step_false_only_for_unknown_ids (s : TrackerState)
    (tid n : String) (i o : Dict) (m : Option Dict) :
    (alookup s.traces tid = none →
      WorkflowTracker.track_step s tid n i o m = (false, s)) ∧
    (alookup s.traces tid ≠ none →
      (WorkflowTracker.track_step s tid n i o m).1 = true) ∧
    (∀ r tr, alookup s.traces tid = some tr →
      alookup ((WorkflowTracker.complete_trace s tid r).2).traces tid ≠ none) := by
  refine ⟨?_, ?_, ?_⟩
  · intro h
    simp only [WorkflowTracker.track_step, h]
  · intro h
    cases hl : alookup s.traces tid with
    | none => exact absurd hl h
    | some trace =>
      simp only [WorkflowTracker.track_step, hl]
      cases (trace.steps.filter (fun st => st.step_name = n)).head? <;>
        simp [now]
  · intro r tr htr
    simp only [WorkflowTracker.complete_trace, htr, now]
    repeat' split
    all_goals simp [alookup_ainsert_self]

/-- C3 witness: the amended theorem at concrete inputs — an unknown id is a
no-op, a live id accepts. -/
theorem c3_track_step_false_only_for_unknown_ids_witness :
    (WorkflowTracker.track_step { } "ghost" "s" [] [] none = (false, { })) ∧
    (WorkflowTracker.track_step
      { traces := [("uuid-0", { trace_id := "uuid-0", query := "q", start_time := 0 })] }
      "uuid-0" "s" [] [] none).1 = true :=
  ⟨(c3_track_step_false_only_for_unknown_ids { } "ghost" "s" [] [] none).1 rfl,
   (c3_track_step_false_only_for_unknown_ids
      { traces := [("uuid-0", { trace_id := "uuid-0", query := "q", start_time := 0 })] }
      "uuid-0" "s" [] [] none).2.1 (by simp)⟩

/-- C2 counterexample: `register_storage_backend` REPLACES the single
backend rather than adding to a fan-out set: after registering two backends
and sealing a trace, the first registered backend (which supports point
lookup) does not hold the sealed trace — only the second does. -/
theorem c2_counterexample :
    let b1 : InMemoryStorage := { max_traces := 5 }
    let s1 := WorkflowTracker.register_storage_backend { } (.mem b1)
    let s2 := WorkflowTracker.register_storage_backend s1 (.mem { max_traces := 7 })
    let tid := (WorkflowTracker.start_trace s2 "q").1
    let s3 := (WorkflowTracker.start_trace s2 "q").2
    let s4 := (WorkflowTracker.complete_trace s3 tid (some "resp")).2
    (alookup s4.traces tid).map WorkflowTrace.final_response = some (some "resp") ∧
    (match s4.storage_backend with
      | some (.mem mb) => some (mb.max_traces, (mb.get_trace tid).map WorkflowTrace.final_response)
      | _ => none) = some (7, some (some "resp")) ∧
    b1.get_trace tid = none :=
  ⟨rfl, rfl, rfl⟩

/-- C2 amended: the tracker holds a single storage backend; registering a
new one replaces the old. After `complete_trace`, the most recently
registered backend's `get` returns the sealed trace with the sealed
`final_response`; earlier-registered backends receive nothing. -/
theorem c2_only_last_registered_backend_stores (q r : String) :
    let s2 : TrackerState := WorkflowTracker.register_storage_backend
      (WorkflowTracker.register_storage_backend { } (.mem { max_traces := 5 }))
      (.mem { })
    let tid := (WorkflowTracker.start_trace s2 q).1
    let s3 := (WorkflowTracker.start_trace s2 q).2
    let s4 := (WorkflowTracker.complete_trace s3 tid (some r)).2
    (match s4.storage_backend with
      | some (.mem mb) => (mb.get_trace tid).map WorkflowTrace.final_response
      | _ => none) = some (some r) := by
  simp [WorkflowTracker.complete_trace, WorkflowTracker.start_trace, now,
    WorkflowTracker.register_storage_backend, WorkflowTracker.load_traces,
    Backend.load_traces_attr, Backend.store_trace, InMemoryStorage.store_trace,
    InMemoryStorage.get_trace]

/-! ## In-memory FIFO lemmas -/

/-- A single `store_trace` below capacity, on a fresh id: pure append. -/
theorem store_trace_no_evict (s : InMemoryStorage) (t : WorkflowTrace)
    (hcap : s.trace_ids.length + 1 ≤ s.max_traces)
    (hfresh : alookup s.traces t.trace_id = none) :
    s.store_trace t =
      { traces := s.traces ++ [(t.trace_id, t)], max_traces := s.max_traces,
        trace_ids := s.trace_ids ++ [t.trace_id] } := by
  simp only [InMemoryStorage.store_trace, ainsert_of_alookup_none _ _ _ hfresh]
  rw [if_neg (by simp; omega)]

/-- Folding `store_trace` over fresh, pairwise-distinct traces that fit in
the remaining capacity appends them all, evicting nothing. -/
theorem store_all_no_evict (ts : List WorkflowTrace) (s : InMemoryStorage)
    (hcap : s.trace_ids.length + ts.length ≤ s.max_traces)
    (hfresh : ∀ t ∈ ts, alookup s.traces t.trace_id = none)
    (hnodup : (ts.map WorkflowTrace.trace_id).Nodup) :
    ts.foldl InMemoryStorage.store_trace s =
      { traces := s.traces ++ ts.map (fun t => (t.trace_id, t)),
        max_traces := s.max_traces,
        trace_ids := s.trace_ids ++ ts.map WorkflowTrace.trace_id } := by
  induction ts generalizing s with
  | nil => simp
  | cons hd tl ih =>
    simp only [List.foldl_cons]
    rw [store_trace_no_evict s hd (by simp at hcap ⊢; omega)
      (hfresh hd (List.mem_cons_self hd tl))]
    simp only [List.map_cons, List.nodup_cons] at hnodup
    rw [ih _ (by simp; simp at hcap; omega) ?_ hnodup.2]
    · simp [List.append_assoc]
    · intro t ht
      rw [alookup_append_of_none _ _ _ (hfresh t (List.mem_cons_of_mem hd ht))]
      have hne : hd.trace_id ≠ t.trace_id := by
        intro he
        exact hnodup.1 (he ▸ List.mem_map_of_mem WorkflowTrace.trace_id ht)
      simp [hne]

/-- Projecting the values out of the entry list returns the traces. -/
theorem map_snd_entries (ts : List WorkflowTrace) :
    List.map ((fun x => x.2) ∘ fun t : WorkflowTrace => (t.trace_id, t)) ts = ts := by
  induction ts with
  | nil => rfl
  | cons hd tl ih => simp [ih]

/-- C7: the in-memory backend with capacity `N >= 1`, fed `N + 1` traces
with pairwise-distinct ids, drops exactly the oldest: `get` on the first
trace id is null, `get` on each of the `N` most recent returns that trace,
and the stored traces are exactly the `N` most recent, in order. -/
theorem c7_fifo_eviction (N : Nat) (t0 : WorkflowTrace) (ts : List WorkflowTrace)
    (hN : 1 <= N) (hlen : ts.length = N)
    (hnodup : ((t0 :: ts).map WorkflowTrace.trace_id).Nodup) :
    ((t0 :: ts).foldl InMemoryStorage.store_trace ⟨[], N, []⟩).get_trace t0.trace_id
        = none ∧
    (∀ t ∈ ts,
      ((t0 :: ts).foldl InMemoryStorage.store_trace ⟨[], N, []⟩).get_trace t.trace_id
        = some t) ∧
    ((t0 :: ts).foldl InMemoryStorage.store_trace ⟨[], N, []⟩).get_all_traces = ts := by
  simp only [List.map_cons, List.nodup_cons] at hnodup
  obtain ⟨hnotmem, hnodup_ts⟩ := hnodup
  rcases List.eq_nil_or_concat ts with hnil | ⟨tl, tlast, hts⟩
  · subst hnil; simp at hlen; omega
  rw [List.concat_eq_append] at hts
  have hfinal : (t0 :: ts).foldl InMemoryStorage.store_trace ⟨[], N, []⟩ =
      { traces := ts.map (fun t => (t.trace_id, t)), max_traces := N,
        trace_ids := ts.map WorkflowTrace.trace_id } := by
    subst hts
    have hlen_tl : tl.length + 1 = N := by simpa using hlen
    rw [List.map_append] at hnodup_ts
    obtain ⟨hnodup_tl, -, hdisj⟩ := List.nodup_append.mp hnodup_ts
    have htlast_notmem : tlast.trace_id ∉ tl.map WorkflowTrace.trace_id := by
      intro hmem
      exact hdisj hmem (by simp)
    rw [List.map_append, List.mem_append] at hnotmem
    push_neg at hnotmem
    obtain ⟨h0tl, h0last⟩ := hnotmem
    have h0last' : t0.trace_id ≠ tlast.trace_id := by simpa using h0last
    simp only [List.foldl_cons, List.foldl_append, List.foldl_nil]
    rw [store_trace_no_evict ⟨[], N, []⟩ t0 (by simp; omega) rfl]
    simp only [List.nil_append]
    rw [store_all_no_evict tl ⟨[(t0.trace_id, t0)], N, [t0.trace_id]⟩
      (by simp; omega)
      (by
        intro t ht
        have hne : t0.trace_id ≠ t.trace_id := by
          intro he
          exact h0tl (he ▸ List.mem_map_of_mem WorkflowTrace.trace_id ht)
        simp [hne])
      hnodup_tl]
    have hfreshlast :
        alookup ([(t0.trace_id, t0)] ++ tl.map (fun t => (t.trace_id, t)))
          tlast.trace_id = none := by
      simp only [List.singleton_append, alookup_cons]
      rw [if_neg h0last']
      exact alookup_entries_of_not_mem tl tlast.trace_id htlast_notmem
    simp only [InMemoryStorage.store_trace]
    rw [ainsert_of_alookup_none _ _ _ hfreshlast]
    rw [if_pos (by simp; omega)]
    simp only [List.singleton_append, List.cons_append]
    simp [List.map_append, List.append_assoc]
  rw [hfinal]
  refine ⟨?_, ?_, ?_⟩
  · exact alookup_entries_of_not_mem ts t0.trace_id hnotmem
  · intro t ht
    exact alookup_entries_of_mem ts t ht hnodup_ts
  · simp only [InMemoryStorage.get_all_traces, List.map_map]
    exact map_snd_entries ts

/-- C7 witness: the eviction theorem at capacity 2 with three traces. -/
theorem c7_fifo_eviction_witness :
    (1 : Nat) <= 2 ∧
    ([({ trace_id := "b", query := "qb", start_time := 1 } : WorkflowTrace),
      { trace_id := "c", query := "qc", start_time := 2 }].length = 2) ∧
    ((([({ trace_id := "a", query := "qa", start_time := 0 } : WorkflowTrace),
        { trace_id := "b", query := "qb", start_time := 1 },
        { trace_id := "c", query := "qc", start_time := 2 }]).map
        WorkflowTrace.trace_id).Nodup) ∧
    (([({ trace_id := "a", query := "qa", start_time := 0 } : WorkflowTrace),
       { trace_id := "b", query := "qb", start_time := 1 },
       { trace_id := "c", query := "qc", start_time := 2 }].foldl
        InMemoryStorage.store_trace ⟨[], 2, []⟩).get_trace "a" = none ∧
     (∀ t ∈ [({ trace_id := "b", query := "qb", start_time := 1 } : WorkflowTrace),
        { trace_id := "c", query := "qc", start_time := 2 }],
       ([({ trace_id := "a", query := "qa", start_time := 0 } : WorkflowTrace),
         { trace_id := "b", query := "qb", start_time := 1 },
         { trace_id := "c", query := "qc", start_time := 2 }].foldl
          InMemoryStorage.store_trace ⟨[], 2, []⟩).get_trace t.trace_id = some t) ∧
     ([({ trace_id := "a", query := "qa", start_time := 0 } : WorkflowTrace),
       { trace_id := "b", query := "qb", start_time := 1 },
       { trace_id := "c", query := "qc", start_time := 2 }].foldl
        InMemoryStorage.store_trace ⟨[], 2, []⟩).get_all_traces =
      [({ trace_id := "b", query := "qb", start_time := 1 } : WorkflowTrace),
       { trace_id := "c", query := "qc", start_time := 2 }]) :=
  ⟨by decide, rfl, by decide,
   c7_fifo_eviction 2 { trace_id := "a", query := "qa", start_time := 0 }
    [{ trace_id := "b", query := "qb", start_time := 1 },
     { trace_id := "c", query := "qc", start_time := 2 }]
    (by decide) rfl (by decide)⟩

/-- A minimal active trace used by the concrete witnesses. -/
def wTrace : WorkflowTrace :=
  { trace_id := "t", query := "q", start_time := 0 }

/-- A tracker holding just `wTrace`, used by the concrete witnesses. -/
def wTracker : TrackerState :=
  { traces := [("t", wTrace)] }

/-- A one-step trace (step `"s"` already registered) for the frame witness. -/
def wTrace8 : WorkflowTrace where
  trace_id := "t"
  query := "q"
  start_time := 0
  steps := [StepTrace.mk "s" [("i0", Value.vNat 0)] [] 1 none none []]

/-- A tracker holding just `wTrace8`. -/
def wTracker8 : TrackerState :=
  { traces := [("t", wTrace8)] }

/-- C6: two `track_step` calls with the same name `n` on an active trace
with no step of that name yield exactly one StepRecord named `n`, whose
outputs are the second call's, whose metadata is the first call's metadata
merged (not replaced) with the second call's, and whose `duration_ms` is
nonnegative and computed relative to the step's original `start_time`. -/
theorem c6_step_accumulation (s s1 s2 : TrackerState) (tid n : String)
    (i1 o1 i2 o2 m1 m2 : Dict) (trace : WorkflowTrace)
    (hactive : alookup s.traces tid = some trace)
    (hnone : ∀ st ∈ trace.steps, st.step_name ≠ n)
    (hs1 : (WorkflowTracker.track_step s tid n i1 o1 (some m1)).2 = s1)
    (hs2 : (WorkflowTracker.track_step s1 tid n i2 o2 (some m2)).2 = s2) :
    ∃ tr st, alookup s2.traces tid = some tr ∧
      tr.steps.filter (fun st' => st'.step_name = n) = [st] ∧
      st.outputs = o2 ∧
      st.metadata = dictUpdate m1 m2 ∧
      st.start_time = s.clock ∧
      st.end_time = some (s.clock + 2) ∧
      st.duration_ms = some (((s.clock + 2 : Nat) : Int) - ((s.clock : Nat) : Int)) ∧
      ∃ d, st.duration_ms = some d ∧ 0 ≤ d := by
  subst hs2
  subst hs1
  have h1 := track_step_create s tid n i1 o1 (some m1) trace hactive hnone
  simp only [h1]
  have h2 := track_step_update
    { s with
        clock := s.clock + 2
        traces := ainsert s.traces tid { trace with steps := trace.steps ++
          [StepTrace.mk n i1 o1 s.clock (some (s.clock + 1)) none ((some m1).getD [])] } }
    tid n i2 o2 (some m2)
    { trace with steps := trace.steps ++
        [StepTrace.mk n i1 o1 s.clock (some (s.clock + 1)) none ((some m1).getD [])] }
    trace.steps []
    (StepTrace.mk n i1 o1 s.clock (some (s.clock + 1)) none ((some m1).getD []))
    (alookup_ainsert_self _ _ _) rfl hnone rfl
  simp only [h2]
  refine ⟨_, _, alookup_ainsert_self _ _ _,
    filter_steps_append_singleton trace.steps _ n hnone rfl, rfl, ?_, rfl, rfl, rfl,
    ⟨((s.clock + 2 : Nat) : Int) - ((s.clock : Nat) : Int), rfl, by omega⟩⟩
  show (if metaTruthy (some m2) then dictUpdate ((some m1).getD []) ((some m2).getD [])
      else (some m1).getD []) = dictUpdate m1 m2
  cases m2 with
  | nil => simp [metaTruthy, dictUpdate]
  | cons a l => simp [metaTruthy]

/-- C6 witness: the accumulation theorem at a concrete active trace. -/
theorem c6_step_accumulation_witness :
    (alookup wTracker.traces "t" = some wTrace) ∧
    (∃ tr st,
      alookup (WorkflowTracker.track_step
          (WorkflowTracker.track_step wTracker
            "t" "s" [("i1", Value.vNat 1)] [("o1", Value.vNat 1)]
            (some [("m1", Value.vNat 1)])).2
          "t" "s" [("i2", Value.vNat 2)] [("o2", Value.vNat 2)]
          (some [("m2", Value.vNat 2)])).2.traces "t" = some tr ∧
      tr.steps.filter (fun st' => st'.step_name = "s") = [st] ∧
      st.outputs = [("o2", Value.vNat 2)] ∧
      st.metadata = dictUpdate [("m1", Value.vNat 1)] [("m2", Value.vNat 2)] ∧
      st.start_time = 0 ∧
      st.end_time = some 2 ∧
      st.duration_ms = some (((2 : Nat) : Int) - ((0 : Nat) : Int)) ∧
      ∃ d, st.duration_ms = some d ∧ 0 ≤ d) :=
  ⟨rfl, c6_step_accumulation wTracker _ _ "t" "s"
    [("i1", Value.vNat 1)] [("o1", Value.vNat 1)]
    [("i2", Value.vNat 2)] [("o2", Value.vNat 2)]
    [("m1", Value.vNat 1)] [("m2", Value.vNat 2)]
    wTrace rfl (by simp [wTrace]) rfl rfl⟩

/-- C8: updating an existing step `st0` by name touches only that step's
`outputs`, `end_time`, `duration_ms` and `metadata`: its `step_name`,
`inputs` and `start_time` keep their original values (the new inputs are
discarded), every other step and every trace-level field is unchanged, and
other traces are untouched. -/
theorem c8_track_step_update_frame (s : TrackerState) (tid n : String) (i o : Dict)
    (m : Option Dict) (trace : WorkflowTrace) (pre post : List StepTrace) (st0 : StepTrace)
    (hactive : alookup s.traces tid = some trace)
    (hsteps : trace.steps = pre ++ st0 :: post)
    (hpre : ∀ st ∈ pre, st.step_name ≠ n)
    (hst0 : st0.step_name = n) :
    (WorkflowTracker.track_step s tid n i o m).1 = true ∧
    ∃ st', alookup ((WorkflowTracker.track_step s tid n i o m).2).traces tid =
        some { trace with steps := pre ++ st' :: post } ∧
      st'.step_name = st0.step_name ∧
      st'.inputs = st0.inputs ∧
      st'.start_time = st0.start_time ∧
      st'.outputs = o ∧
      ∀ tid', tid' ≠ tid →
        alookup ((WorkflowTracker.track_step s tid n i o m).2).traces tid' =
          alookup s.traces tid' := by
  have h := track_step_update s tid n i o m trace pre post st0 hactive hsteps hpre hst0
  simp only [h]
  exact ⟨by trivial, _, alookup_ainsert_self _ _ _, rfl, rfl, rfl, rfl,
    fun tid' hne => alookup_ainsert_ne _ _ _ _ hne⟩

/-- C8 witness: the frame theorem at a concrete one-step trace. -/
theorem c8_track_step_update_frame_witness :
    (alookup wTracker8.traces "t" = some wTrace8) ∧
    (wTrace8.steps = [] ++ StepTrace.mk "s" [("i0", Value.vNat 0)] [] 1 none none [] :: []) ∧
    ((WorkflowTracker.track_step wTracker8 "t" "s"
        [("inew", Value.vNat 9)] [("onew", Value.vNat 9)] none).1 = true ∧
     ∃ st', alookup ((WorkflowTracker.track_step wTracker8 "t" "s"
          [("inew", Value.vNat 9)] [("onew", Value.vNat 9)] none).2).traces "t" =
        some { wTrace8 with steps := [] ++ st' :: [] } ∧
      st'.step_name = (StepTrace.mk "s" [("i0", Value.vNat 0)] [] 1 none none []).step_name ∧
      st'.inputs = (StepTrace.mk "s" [("i0", Value.vNat 0)] [] 1 none none []).inputs ∧
      st'.start_time = (StepTrace.mk "s" [("i0", Value.vNat 0)] [] 1 none none []).start_time ∧
      st'.outputs = [("onew", Value.vNat 9)] ∧
      ∀ tid', tid' ≠ "t" →
        alookup ((WorkflowTracker.track_step wTracker8 "t" "s"
            [("inew", Value.vNat 9)] [("onew", Value.vNat 9)] none).2).traces tid' =
          alookup wTracker8.traces tid') :=
  ⟨rfl, rfl, c8_track_step_update_frame wTracker8 "t" "s"
    [("inew", Value.vNat 9)] [("onew", Value.vNat 9)] none wTrace8 [] []
    (StepTrace.mk "s" [("i0", Value.vNat 0)] [] 1 none none [])
    rfl rfl (by simp) rfl⟩

/-- C9: creating a step via `track_step` stamps a non-null `end_time` but
leaves `duration_ms` null; only a second call with the same name makes
`duration_ms` non-null. -/
theorem c9_duration_null_until_second_call (s s1 s2 : TrackerState) (tid n : String)
    (i1 o1 i2 o2 : Dict) (m1 m2 : Option Dict) (trace : WorkflowTrace)
    (hactive : alookup s.traces tid = some trace)
    (hnone : ∀ st ∈ trace.steps, st.step_name ≠ n)
    (hs1 : (WorkflowTracker.track_step s tid n i1 o1 m1).2 = s1)
    (hs2 : (WorkflowTracker.track_step s1 tid n i2 o2 m2).2 = s2) :
    (∃ tr1 st1, alookup s1.traces tid = some tr1 ∧
      tr1.steps.filter (fun st' => st'.step_name = n) = [st1] ∧
      st1.end_time ≠ none ∧ st1.duration_ms = none) ∧
    (∃ tr2 st2, alookup s2.traces tid = some tr2 ∧
      tr2.steps.filter (fun st' => st'.step_name = n) = [st2] ∧
      st2.duration_ms ≠ none) := by
  subst hs2
  subst hs1
  have h1 := track_step_create s tid n i1 o1 m1 trace hactive hnone
  simp only [h1]
  have h2 := track_step_update
    { s with
        clock := s.clock + 2
        traces := ainsert s.traces tid { trace with steps := trace.steps ++
          [StepTrace.mk n i1 o1 s.clock (some (s.clock + 1)) none (m1.getD [])] } }
    tid n i2 o2 m2
    { trace with steps := trace.steps ++
        [StepTrace.mk n i1 o1 s.clock (some (s.clock + 1)) none (m1.getD [])] }
    trace.steps []
    (StepTrace.mk n i1 o1 s.clock (some (s.clock + 1)) none (m1.getD []))
    (alookup_ainsert_self _ _ _) rfl hnone rfl
  simp only [h2]
  constructor
  · exact ⟨_, _, alookup_ainsert_self _ _ _,
      filter_steps_append_singleton trace.steps _ n hnone rfl, by simp, rfl⟩
  · exact ⟨_, _, alookup_ainsert_self _ _ _,
      filter_steps_append_singleton trace.steps _ n hnone rfl, by simp⟩

/-- C9 witness: the creation/update timing theorem at a concrete trace. -/
theorem c9_duration_null_until_second_call_witness :
    (alookup wTracker.traces "t" = some wTrace) ∧
    ((∃ tr1 st1, alookup (WorkflowTracker.track_step wTracker
          "t" "s" [] [] none).2.traces "t" = some tr1 ∧
        tr1.steps.filter (fun st' => st'.step_name = "s") = [st1] ∧
        st1.end_time ≠ none ∧ st1.duration_ms = none) ∧
     (∃ tr2 st2, alookup (WorkflowTracker.track_step
          (WorkflowTracker.track_step wTracker "t" "s" [] [] none).2
          "t" "s" [] [] none).2.traces "t" = some tr2 ∧
        tr2.steps.filter (fun st' => st'.step_name = "s") = [st2] ∧
        st2.duration_ms ≠ none)) :=
  ⟨rfl, c9_duration_null_until_second_call wTracker _ _ "t" "s" [] [] [] [] none none
    wTrace rfl (by simp [wTrace]) rfl rfl⟩

/-- The `except Exception` block seals the trace with the error marker and
re-raises: characterisation of `error_path` on a state whose trace has no
step named `"error"` and whose backend is the never-raising file backend. -/
theorem error_path_spec (s : TrackerState) (tid q : String) (e : PyExn)
    (tools_used : List String) (trace : WorkflowTrace) (fb : FileStorageBackend)
    (hactive : alookup s.traces tid = some trace)
    (hnoerr : ∀ st ∈ trace.steps, st.step_name ≠ "error")
    (hb : s.storage_backend = some (.file fb)) :
    (RCAAgent.error_path s tid q e tools_used).1 = .error e ∧
    ∃ tr, alookup (RCAAgent.error_path s tid q e tools_used).2.traces tid = some tr ∧
      tr.end_time ≠ none ∧
      tr.final_response = some ("Error: " ++ e.msg) ∧
      ∃ st ∈ tr.steps, st.step_name = "error" ∧
        alookup st.outputs "error" = some (.vStr e.msg) ∧
        alookup st.metadata "error_type" = some (.vStr e.type_name) ∧
        alookup st.metadata "tools_used" = some (.vList (tools_used.map Value.vStr)) := by
  have h1 := track_step_create s tid "error" [("query", .vStr q)] [("error", .vStr e.msg)]
    (some [("error_type", .vStr e.type_name),
           ("tools_used", .vList (tools_used.map Value.vStr))]) trace hactive hnoerr
  unfold RCAAgent.error_path
  simp only [h1, WorkflowTracker.complete_trace, alookup_ainsert_self, now, hb,
    Backend.store_trace]
  refine ⟨trivial, _, rfl, by simp, rfl,
    ⟨_, List.mem_append_right _ (List.mem_singleton_self _), rfl, ?_, ?_, ?_⟩⟩
  · simp
  · simp
  · simp

set_option maxHeartbeats 2000000 in
/-- C1: whenever a pipeline stage raises `e`, `RCAAgent.process` re-raises
`e` to the caller, and the trace started for the query is sealed
(`end_time` non-null, `final_response = "Error: " ++ str(e)`) and contains
a step named `"error"` whose `outputs.error` is `str(e)`, whose
`metadata.error_type` is the exception class name and whose
`metadata.tools_used` lists exactly the stages completed before failure. -/
theorem c1_error_path_end_to_end (tools : Tools) (q : String) (e : PyExn)
    (h : pipeline_error tools q = some e) :
    (RCAAgent.process tools initTracker q).1 = .error e ∧
    ∃ tr, alookup (RCAAgent.process tools initTracker q).2.traces
        (WorkflowTracker.start_trace initTracker q).1 = some tr ∧
      tr.end_time ≠ none ∧
      tr.final_response = some ("Error: " ++ e.msg) ∧
      ∃ st ∈ tr.steps, st.step_name = "error" ∧
        alookup st.outputs "error" = some (.vStr e.msg) ∧
        alookup st.metadata "error_type" = some (.vStr e.type_name) ∧
        alookup st.metadata "tools_used" =
          some (.vList ((completed_stages tools q).map Value.vStr)) := by
  cases hvs : tools.vector_search q with
  | error e1 =>
    simp only [pipeline_error, hvs] at h
    obtain rfl : e1 = e := by injection h
    simp only [completed_stages, hvs]
    simp only [RCAAgent.process, WorkflowTracker.start_trace,
      WorkflowTracker.track_step, WorkflowTracker.complete_trace, now, initTracker,
      WorkflowTracker.load_traces, Backend.load_traces_attr,
      FileStorageBackend.load_traces, metaTruthy, dictUpdate, setFirstStep, hvs]
    apply error_path_spec
    · rfl
    · simp
    · rfl
  | ok sr =>
    cases hdr : tools.document_ranking q sr.results with
    | error e1 =>
      simp only [pipeline_error, hvs, hdr] at h
      obtain rfl : e1 = e := by injection h
      simp only [completed_stages, hvs, hdr]
      simp only [RCAAgent.process, WorkflowTracker.start_trace,
        WorkflowTracker.track_step, WorkflowTracker.complete_trace, now, initTracker,
        WorkflowTracker.load_traces, Backend.load_traces_attr,
        FileStorageBackend.load_traces, metaTruthy, dictUpdate, setFirstStep, hvs, hdr]
      apply error_path_spec
      · rfl
      · simp [setFirstStep]
      · rfl
    | ok rr =>
      cases hrg : tools.response_generation q rr.results with
      | error e1 =>
        simp only [pipeline_error, hvs, hdr, hrg] at h
        obtain rfl : e1 = e := by injection h
        simp only [completed_stages, hvs, hdr]
        simp only [RCAAgent.process, WorkflowTracker.start_trace,
          WorkflowTracker.track_step, WorkflowTracker.complete_trace, now, initTracker,
          WorkflowTracker.load_traces, Backend.load_traces_attr,
          FileStorageBackend.load_traces, metaTruthy, dictUpdate, setFirstStep,
          hvs, hdr, hrg]
        apply error_path_spec
        · rfl
        · simp [setFirstStep]
        · rfl
      | ok gr =>
        simp only [pipeline_error, hvs, hdr, hrg] at h
        exact absurd h (by simp)

/-- Concrete failing tool set for the error-path witness: retrieval
succeeds, ranking raises `ValueError("boom")`. -/
def wFailTools : Tools where
  vector_search := fun _ => .ok ⟨[Value.vStr "d1"]⟩
  document_ranking := fun _ _ => .error ⟨"ValueError", "boom"⟩
  response_generation := fun _ _ => .ok ⟨"ans", [], none⟩

/-- C1 witness: the error-path theorem at the spec's own test input — a
ranking stub raising `ValueError("boom")` for query `"?"`. -/
theorem c1_error_path_end_to_end_witness :
    (pipeline_error wFailTools "?" = some ⟨"ValueError", "boom"⟩) ∧
    ((RCAAgent.process wFailTools initTracker "?").1 = .error ⟨"ValueError", "boom"⟩ ∧
     ∃ tr, alookup (RCAAgent.process wFailTools initTracker "?").2.traces
        (WorkflowTracker.start_trace initTracker "?").1 = some tr ∧
      tr.end_time ≠ none ∧
      tr.final_response = some ("Error: " ++ "boom") ∧
      ∃ st ∈ tr.steps, st.step_name = "error" ∧
        alookup st.outputs "error" = some (.vStr "boom") ∧
        alookup st.metadata "error_type" = some (.vStr "ValueError") ∧
        alookup st.metadata "tools_used" =
          some (.vList ((completed_stages wFailTools "?").map Value.vStr))) :=
  ⟨rfl, c1_error_path_end_to_end wFailTools "?" ⟨"ValueError", "boom"⟩ rfl⟩

end RcaTracking
